import Mathlib

/-!
Shallow embedding of the timetable generator in `src/api/index.py`
(class `TimetableGenerator`): time-slot construction, the teacher mapping,
the room-booking ledger, the room search `find_and_book_room`, and the main
scheduling routine `generate_timetables`.  Spreadsheet rows are modelled as
records of optional cell values; Python exceptions (`ValueError`) are
modelled with `Except String`; the mutable `self.room_bookings` ledger is
threaded explicitly.  String primitives used by the code (`lower`, `strip`,
`split(',')`, `endswith`, substring membership, `int(...)`) are defined
structurally over `String.data` so that every definition evaluates inside
the kernel.
-/

namespace TT

/-- Python `str.lower` restricted to ASCII, as the scheduler uses it. -/
def pyLower (s : String) : String := ⟨s.data.map Char.toLower⟩

/-- Whitespace test used by `pyStrip`. -/
def isSpaceChar (c : Char) : Bool := c = ' ' || c = '\t' || c = '\n' || c = '\r'

/-- Python `str.strip`. -/
def pyStrip (s : String) : String :=
  ⟨((s.data.dropWhile isSpaceChar).reverse.dropWhile isSpaceChar).reverse⟩

/-- Helper for `pySplitComma`. -/
def splitCommaAux : List Char → List Char → List String
  | [], acc => [⟨acc.reverse⟩]
  | c :: rest, acc =>
    if c = ',' then ⟨acc.reverse⟩ :: splitCommaAux rest [] else splitCommaAux rest (c :: acc)

/-- Python `str.split(',')`. -/
def pySplitComma (s : String) : List String := splitCommaAux s.data []

/-- Boolean list-prefix test (first argument is the candidate start). -/
def listStarts : List Char → List Char → Bool
  | [], _ => true
  | _ :: _, [] => false
  | a :: as, b :: bs => a == b && listStarts as bs

/-- Python `str.endswith`. -/
def pyEndsWith (s suf : String) : Bool := listStarts suf.data.reverse s.data.reverse

/-- Python substring membership `pat in s`. -/
def strContains (s pat : String) : Bool :=
  (List.range (s.data.length + 1)).any
    (fun i => ((s.data.drop i).take pat.data.length) == pat.data)

/-- Helper for `digitsVal`: accumulate decimal digits, failing on a non-digit. -/
def digitsValAux : Option Nat → List Char → Option Nat
  | acc, [] => acc
  | acc, c :: rest =>
    if c.isDigit then digitsValAux (acc.map (fun a => a * 10 + (c.toNat - 48))) rest
    else none

/-- Value of a non-empty all-digit character list. -/
def digitsVal : List Char → Option Nat
  | [] => none
  | c :: rest => digitsValAux (some 0) (c :: rest)

/-- Python `int` applied to a string: optional sign then decimal digits,
surrounding whitespace allowed; `none` models a raised `ValueError`. -/
def pyStrToInt (s : String) : Option Int :=
  match (pyStrip s).data with
  | '-' :: rest => (digitsVal rest).map (fun n => -(n : Int))
  | '+' :: rest => (digitsVal rest).map (fun n => (n : Int))
  | cs => (digitsVal cs).map (fun n => (n : Int))

/-- A spreadsheet cell value as the Python code sees it: an integer or a string. -/
inductive PyVal where
  | int (n : Int)
  | str (s : String)
deriving DecidableEq, Repr

/-- Python `int` applied to a cell value; `none` models a raised `ValueError`. -/
def pyInt : PyVal → Option Int
  | .int n => some n
  | .str s => pyStrToInt s

/-- One row of the `Teacher` sheet; `none` fields model absent columns.
Columns: `Nmae`, `Name`, `courses`, `credit hours`. -/
structure TeacherRow where
  nmae : Option String
  name : Option String
  courses : Option String
  creditHours : Option PyVal
deriving DecidableEq, Repr

/-- One row of the `Sections` sheet. Columns: `Section`, `Subject`. -/
structure SectionRow where
  sectionCol : Option String
  subjectCol : Option String
deriving DecidableEq, Repr

/-- One row of the `rooms` sheet. Columns: `room id`, `type`. -/
structure RoomRow where
  roomId : Option String
  roomType : Option String
deriving DecidableEq, Repr

/-- The per-subject record `{'name': ..., 'credit_hours': ...}` stored by
`build_teacher_mapping`. -/
structure TeacherInfo where
  name : String
  creditHours : PyVal
deriving DecidableEq, Repr

/-- `str(row.get('Nmae', row.get('Name', 'Unknown'))).strip()`. -/
def teacherRowName (row : TeacherRow) : String :=
  pyStrip (row.nmae.getD (row.name.getD "Unknown"))

/-- `str(row.get('courses', '')).strip()`. -/
def teacherRowCourses (row : TeacherRow) : String := pyStrip (row.courses.getD "")

/-- `row.get('credit hours', 0)`. -/
def teacherRowCredit (row : TeacherRow) : PyVal := row.creditHours.getD (.int 0)

/-- The course list `[c.strip() for c in courses.split(',') if c.strip()]`. -/
def courseListOf (row : TeacherRow) : List String :=
  ((pySplitComma (teacherRowCourses row)).map pyStrip).filter (fun c => c ≠ "")

/-- Append `info` to `mapping[course]` for each course, in order
(`mapping[course].append(...)` on a `defaultdict(list)`). -/
def addCourses (m : String → List TeacherInfo) (info : TeacherInfo) :
    List String → (String → List TeacherInfo)
  | [] => m
  | c :: rest => addCourses (fun c' => if c' = c then m c' ++ [info] else m c') info rest

/-- `TimetableGenerator.build_teacher_mapping` with its two fault checks. -/
def build_teacher_mapping (df : List TeacherRow) :
    Except String (String → List TeacherInfo) :=
  df.enum.foldlM
    (fun m p =>
      let tName := teacherRowName p.2
      let courses := teacherRowCourses p.2
      if tName = "" || pyLower tName = "unknown" then
        .error ("Excel sheet fault: Teacher name missing at row " ++ Nat.repr (p.1 + 2))
      else if courses = "" then
        .error ("Excel sheet fault: No courses assigned to teacher " ++ tName)
      else
        .ok (addCourses m ⟨tName, teacherRowCredit p.2⟩ (courseListOf p.2)))
    (fun _ => [])

/-- The fixed day list `self.days`. -/
def days : List String := ["Monday", "Tuesday", "Wednesday", "Thursday", "Friday"]

/-- `TimetableGenerator._generate_time_slots` for one day: hours 8-12,
then 14-16 on Friday, 13-16 otherwise. -/
def timeSlots (day : String) : List (Nat × Nat) :=
  [(8, 9), (9, 10), (10, 11), (11, 12)] ++
    (if day = "Friday" then [(14, 15), (15, 16)] else [(13, 14), (14, 15), (15, 16)])

/-- A slot of `all_possible_slots`: its day and its `(start, end)` hour pair. -/
abbrev Slot := String × Nat × Nat

/-- The flattened list `all_possible_slots` built at the start of
`generate_timetables`. -/
def allPossibleSlots : List Slot :=
  (days.map (fun d => (timeSlots d).map (fun t => (d, t)))).flatten

/-- `total_slots = len(all_possible_slots)`. -/
def totalSlots : Nat := allPossibleSlots.length

/-- The time-string formatting `f"{a}:00-{b}:00"` used as ledger key and
entry field. -/
def timeStr (t : Nat × Nat) : String :=
  Nat.repr t.1 ++ ":00-" ++ Nat.repr t.2 ++ ":00"

/-- The ledger `self.room_bookings`: day and time string to the set of booked
room ids, modelled as an association list of duplicate-free lists. -/
abbrev Bookings := List ((String × String) × List String)

/-- Read `room_bookings[day][t]` (defaulting to the empty set). -/
def bkGet : Bookings → String → String → List String
  | [], _, _ => []
  | (k, rs) :: rest, day, t => if k = (day, t) then rs else bkGet rest day t

/-- `room_bookings[day][t].add(r)` (a no-op when `r` is already present). -/
def bkAdd : Bookings → String → String → String → Bookings
  | [], day, t, r => [((day, t), [r])]
  | (k, rs) :: rest, day, t, r =>
    if k = (day, t) then (k, if r ∈ rs then rs else rs ++ [r]) :: rest
    else (k, rs) :: bkAdd rest day t r

/-- `TimetableGenerator.check_room_availability`. -/
def check_room_availability (bk : Bookings) (roomId day : String)
    (times : List String) : Bool :=
  times.all (fun t => decide (roomId ∉ bkGet bk day t))

/-- `str(room.get('room id', 'Unknown'))`. -/
def roomIdOf (room : RoomRow) : String := room.roomId.getD "Unknown"

/-- The lab-room test of `find_and_book_room`:
`'lab' in r_type or 'lab' in r_id.lower()`. -/
def labTypeMatch (room : RoomRow) : Bool :=
  strContains (pyLower (room.roomType.getD "")) "lab" ||
    strContains (pyLower (roomIdOf room)) "lab"

/-- The non-lab-room test of `find_and_book_room`:
`('ke' in r_type or 'ke' in r_id.lower() or 'class' in r_type) and 'lab' not in r_type`. -/
def nonLabTypeMatch (room : RoomRow) : Bool :=
  (strContains (pyLower (room.roomType.getD "")) "ke" ||
      strContains (pyLower (roomIdOf room)) "ke" ||
      strContains (pyLower (room.roomType.getD "")) "class") &&
    !strContains (pyLower (room.roomType.getD "")) "lab"

/-- `TimetableGenerator.find_and_book_room`: scan the roster for the first
type-matching room free at every requested time; book it and return its id,
else return the `"TBA"` sentinel.  The returned ledger is the post-call
`self.room_bookings`. -/
def find_and_book_room (bk : Bookings) (day : String) (times : List String)
    (isLab : Bool) : List RoomRow → String × Bookings
  | [] => ("TBA", bk)
  | room :: rest =>
    let rId := roomIdOf room
    let typeMatch := if isLab then labTypeMatch room else nonLabTypeMatch room
    if typeMatch && check_room_availability bk rId day times then
      (rId, times.foldl (fun b t => bkAdd b day t rId) bk)
    else find_and_book_room bk day times isLab rest

/-- One cell appended to `timetables[section]` by `generate_timetables`. -/
structure Entry where
  subject : String
  teacher : String
  day : String
  time : String
  room : String
deriving DecidableEq, Repr

/-- `if section not in timetables: timetables[section] = []` followed by
`timetables[section].append(e)`, on an insertion-ordered dict. -/
def ttAppend : List (String × List Entry) → String → Entry → List (String × List Entry)
  | [], sec, e => [(sec, [e])]
  | (s, es) :: rest, sec, e =>
    if s = sec then (s, es ++ [e]) :: rest else (s, es) :: ttAppend rest sec e

/-- Read `timetables[section]` (defaulting to the empty list). -/
def ttGet : List (String × List Entry) → String → List Entry
  | [], _ => []
  | (s, es) :: rest, sec => if s = sec then es else ttGet rest sec

/-- The mutable state of one `generate_timetables` run: the ledger,
`current_slot_index`, and the `timetables` dict. -/
structure GenState where
  bk : Bookings
  cur : Nat
  tt : List (String × List Entry)
deriving DecidableEq, Repr

/-- All entries of all sections of a timetables dict. -/
def entriesOf (tt : List (String × List Entry)) : List Entry := (tt.map Prod.snd).flatten

/-- The lab scheduling loop of `generate_timetables` (`while attempts <
total_slots` with `idx_check = (start_search_index + attempts) % total_slots`):
on success returns the chosen day, the three slots, the post-booking ledger
and the new `current_slot_index`.  The second `Nat` argument is the number of
attempts already made, the third the attempts remaining. -/
def labSearchAux (rooms : List RoomRow) (startIdx : Nat) :
    Bookings → Nat → Nat → Option (String × List Slot × Bookings × Nat)
  | _, _, 0 => none
  | bk, done, fuel + 1 =>
    let idx := (startIdx + done) % totalSlots
    if idx + 3 > allPossibleSlots.length then
      labSearchAux rooms startIdx bk (done + 1) fuel
    else
      let slots := (allPossibleSlots.drop idx).take 3
      let firstDay := (slots.headD ("", 0, 0)).1
      if slots.all (fun s => s.1 = firstDay) then
        let res := find_and_book_room bk firstDay (slots.map (fun s => timeStr s.2)) true rooms
        if res.1 ≠ "TBA" then some (firstDay, slots, res.2, (idx + 3) % totalSlots)
        else labSearchAux rooms startIdx res.2 (done + 1) fuel
      else labSearchAux rooms startIdx bk (done + 1) fuel

/-- The theory scheduling loop of `generate_timetables` for a single hour
(`while attempts < total_slots` with `safe_index = current_slot_index %
total_slots`): on success returns the slot, the booked room id, the
post-booking ledger and the new `current_slot_index`. -/
def theorySearchAux (rooms : List RoomRow) :
    Bookings → Nat → Nat → Option (Slot × String × Bookings × Nat)
  | _, _, 0 => none
  | bk, cur, fuel + 1 =>
    let slot := allPossibleSlots.getD (cur % totalSlots) ("", 0, 0)
    let res := find_and_book_room bk slot.1 [timeStr slot.2] false rooms
    if res.1 ≠ "TBA" then some (slot, res.1, res.2, cur + 1)
    else theorySearchAux rooms res.2 (cur + 1) fuel

/-- `int(teachers[0].get('credit_hours', 3))` with the surrounding
`try/except` that falls back to 3. -/
def creditUsed (info : TeacherInfo) : Int := (pyInt info.creditHours).getD 3

/-- `subject.lower().strip().endswith('lab') or 'lab' in subject.lower()`. -/
def isLabSubject (subject : String) : Bool :=
  pyEndsWith (pyStrip (pyLower subject)) "lab" || strContains (pyLower subject) "lab"

/-- The entry appended for one slot of a booked lab block (room shown as
`"[LAB]"`). -/
def mkLabEntry (subject teacher day : String) (s : Slot) : Entry :=
  ⟨subject, teacher, day, timeStr s.2, "[LAB]"⟩

/-- The theory branch of `generate_timetables`: place `n` single-hour
sessions one after the other, failing with `"not possible"` when a slot
search exhausts all attempts. -/
def theoryLoop (rooms : List RoomRow) (sec subject teacherName : String) :
    GenState → Nat → Except String GenState
  | st, 0 => .ok st
  | st, n + 1 =>
    match theorySearchAux rooms st.bk st.cur totalSlots with
    | some (slot, rId, bk', cur') =>
      theoryLoop rooms sec subject teacherName
        ⟨bk', cur',
          ttAppend st.tt sec ⟨subject, teacherName, slot.1, timeStr slot.2, "[" ++ rId ++ "]"⟩⟩ n
    | none => .error "not possible"

/-- Processing of one subject of one section row inside
`generate_timetables`: resolve the teacher, then run the lab branch (a
3-slot block shown as `"[LAB]"`) or the theory branch. -/
def processSubject (rooms : List RoomRow) (mapping : String → List TeacherInfo)
    (sec subject : String) (st : GenState) : Except String GenState :=
  match mapping subject with
  | [] =>
    .error ("Excel sheet fault: No teacher found for subject " ++ subject ++
      " in section " ++ sec)
  | t0 :: _ =>
    if isLabSubject subject then
      match labSearchAux rooms st.cur st.bk 0 totalSlots with
      | some (day, slots, bk', cur') =>
        .ok ⟨bk', cur',
          (slots.map (mkLabEntry subject t0.name day)).foldl
            (fun tt e => ttAppend tt sec e) st.tt⟩
      | none => .error "not possible"
    else theoryLoop rooms sec subject t0.name st (creditUsed t0).toNat

/-- `str(row.get('Section', f'Section_{idx}')).strip()`. -/
def rowSectionName (idx : Nat) (row : SectionRow) : String :=
  pyStrip (row.sectionCol.getD ("Section_" ++ Nat.repr idx))

/-- `str(row.get('Subject', '')).strip()`. -/
def rowRawSubjects (row : SectionRow) : String := pyStrip (row.subjectCol.getD "")

/-- `[s.strip() for s in raw_subjects.split(',') if s.strip()]`. -/
def rowSubjectList (row : SectionRow) : List String :=
  ((pySplitComma (rowRawSubjects row)).map pyStrip).filter (fun s => s ≠ "")

/-- Processing of one `Sections` row inside `generate_timetables`, with its
two fault checks. -/
def processRow (rooms : List RoomRow) (mapping : String → List TeacherInfo)
    (idx : Nat) (row : SectionRow) (st : GenState) : Except String GenState :=
  let sec := rowSectionName idx row
  if sec = "" || sec = "nan" then
    .error ("Excel sheet fault: Missing Section Name at row " ++ Nat.repr (idx + 2))
  else if rowRawSubjects row = "" then
    .error ("Excel sheet fault: Missing Subjects for section " ++ sec)
  else
    (rowSubjectList row).foldlM (fun s subj => processSubject rooms mapping sec subj s) st

/-- `TimetableGenerator.generate_timetables`: reset the ledger, walk the
section rows in order, and return the `timetables` dict together with the
final `self.room_bookings` ledger. -/
def generateTimetables (sectionsDf : List SectionRow)
    (mapping : String → List TeacherInfo) (roomsDf : List RoomRow) :
    Except String ((List (String × List Entry)) × Bookings) :=
  (sectionsDf.enum.foldlM (fun st p => processRow roomsDf mapping p.1 p.2 st)
      (⟨[], 0, []⟩ : GenState)).map (fun st => (st.tt, st.bk))

/-- An entry whose day and time string come from one of the 34 slots of
`all_possible_slots`. -/
def EntryOK (e : Entry) : Prop :=
  ∃ s, s ∈ allPossibleSlots ∧ e.day = s.1 ∧ e.time = timeStr s.2

/-- One scheduling step only ever appends entries, and every appended entry
is slot-valid. -/
def EntriesGrow (a b : GenState) : Prop :=
  ∀ e ∈ entriesOf b.tt, e ∈ entriesOf a.tt ∨ EntryOK e

/-- Concrete sections table used by the witnesses and counterexamples: one
section `CS1`. -/
def wSecsMath : List SectionRow := [⟨some "CS1", some "Math"⟩]

/-- Concrete sections table with a single lab subject. -/
def wSecsLab : List SectionRow := [⟨some "CS1", some "net lab"⟩]

/-- Concrete sections table listing a 1-hour theory subject before a lab. -/
def wSecsMixed : List SectionRow := [⟨some "CS1", some "Math, phys lab"⟩]

/-- Teacher mapping assigning `Math` to teacher `T` with 35 credit hours. -/
def wMap35 : String → List TeacherInfo :=
  fun s => if s = "Math" then [⟨"T", .int 35⟩] else []

/-- Teacher mapping assigning `Math` to teacher `T` with 8 credit hours. -/
def wMap8 : String → List TeacherInfo :=
  fun s => if s = "Math" then [⟨"T", .int 8⟩] else []

/-- Teacher mapping assigning `Math` to teacher `T` with 1 credit hour. -/
def wMap1 : String → List TeacherInfo :=
  fun s => if s = "Math" then [⟨"T", .int 1⟩] else []

/-- Teacher mapping assigning `net lab` to teacher `T`. -/
def wMapLab : String → List TeacherInfo :=
  fun s => if s = "net lab" then [⟨"T", .int 3⟩] else []

/-- Teacher mapping assigning both subjects of `wSecsMixed` to teacher `T`
with 1 credit hour. -/
def wMapMixed : String → List TeacherInfo :=
  fun s => if s = "Math" || s = "phys lab" then [⟨"T", .int 1⟩] else []

/-- Teacher mapping whose teacher name ends with the marker suffix `main`. -/
def wMapMain : String → List TeacherInfo :=
  fun s => if s = "Math" then [⟨"Ali main", .int 1⟩] else []

/-- Concrete rooms table: one non-lab room. -/
def wRooms1 : List RoomRow := [⟨some "R1", some "class"⟩]

/-- Concrete rooms table: two non-lab rooms. -/
def wRooms2 : List RoomRow := [⟨some "R1", some "class"⟩, ⟨some "R2", some "class"⟩]

/-- Concrete rooms table: one lab room. -/
def wRoomsLab : List RoomRow := [⟨some "L1", some "lab"⟩]

/-- Concrete rooms table: a room whose id contains `lab` but whose type does
not. -/
def wRoomsLabId : List RoomRow := [⟨some "lab1", some "x"⟩]

/-- Concrete rooms table: one non-lab room and one lab room. -/
def wRoomsMixed : List RoomRow := [⟨some "R1", some "class"⟩, ⟨some "L1", some "lab"⟩]

/-- Concrete rooms table: a room whose id is the failure sentinel `TBA`. -/
def wRoomsTBA : List RoomRow := [⟨some "TBA", some "class"⟩]

/-- Concrete teacher table row with the `credit hours` column absent. -/
def wTeacherNoCredit : List TeacherRow := [⟨none, some "T", some "Math", none⟩]

/-- Teacher mapping whose stored credit-hours value is the integer 0 (as the
mapping builder stores for an absent `credit hours` column). -/
def wMapCredit0 : String → List TeacherInfo :=
  fun s => if s = "Math" then [⟨"T", .int 0⟩] else []

theorem getD_mem {α : Type} (l : List α) (i : Nat) (d : α) (h : i < l.length) :
    l.getD i d ∈ l := by
  induction l generalizing i with
  | nil => simp at h
  | cons a rest ih =>
    cases i with
    | zero => simp [List.getD]
    | succ j =>
      simp only [List.getD_cons_succ]
      exact List.mem_cons_of_mem _ (ih j (by simpa using h))

theorem mem_addIfAbsent (r : String) (l : List String) :
    r ∈ (if r ∈ l then l else l ++ [r]) := by
  split
  · assumption
  · simp

theorem bkGet_bkAdd (bk : Bookings) (day t r d' t' : String) :
    bkGet (bkAdd bk day t r) d' t' =
      if d' = day ∧ t' = t then
        (if r ∈ bkGet bk day t then bkGet bk day t else bkGet bk day t ++ [r])
      else bkGet bk d' t' := by
  induction bk with
  | nil =>
    by_cases h : d' = day ∧ t' = t
    · obtain ⟨h1, h2⟩ := h
      subst h1; subst h2
      simp [bkAdd, bkGet]
    · have hne : ¬ (((day, t) : String × String) = (d', t')) := by
        intro hc
        cases hc
        exact h ⟨rfl, rfl⟩
      simp [bkAdd, bkGet, hne, h]
  | cons p rest ih =>
    obtain ⟨k, rs⟩ := p
    by_cases hk : k = ((day, t) : String × String)
    · subst hk
      by_cases h : d' = day ∧ t' = t
      · obtain ⟨h1, h2⟩ := h
        subst h1; subst h2
        simp [bkAdd, bkGet]
      · have hne : ¬ (((day, t) : String × String) = (d', t')) := by
          intro hc
          cases hc
          exact h ⟨rfl, rfl⟩
        simp [bkAdd, bkGet, hne, h]
    · by_cases hdt : k = ((d', t') : String × String)
      · have hcond : ¬ (d' = day ∧ t' = t) := by
          intro hc
          apply hk
          rw [hdt, hc.1, hc.2]
        simp [bkAdd, bkGet, hk, hdt, hcond]
      · have hgb : bkGet ((k, rs) :: rest) day t = bkGet rest day t := by
          simp [bkGet, hk]
        simp [bkAdd, bkGet, hk, hdt, ih, hgb]

theorem bkGet_foldAdd (times : List String) (bk : Bookings) (day r d' t' : String) :
    bkGet (times.foldl (fun b t => bkAdd b day t r) bk) d' t' =
      if d' = day ∧ t' ∈ times then
        (if r ∈ bkGet bk d' t' then bkGet bk d' t' else bkGet bk d' t' ++ [r])
      else bkGet bk d' t' := by
  induction times generalizing bk with
  | nil => simp
  | cons t rest ih =>
    simp only [List.foldl_cons, ih, bkGet_bkAdd, List.mem_cons]
    have hA := mem_addIfAbsent r (bkGet bk day t)
    by_cases hd : d' = day
    · subst hd
      by_cases ht : t' = t
      · subst ht
        by_cases hr : t' ∈ rest <;> split_ifs <;> simp_all
      · by_cases hr : t' ∈ rest <;> simp [ht, hr]
    · simp [hd]

theorem check_avail_iff (bk : Bookings) (roomId day : String) (times : List String) :
    check_room_availability bk roomId day times = true ↔
      ∀ t ∈ times, roomId ∉ bkGet bk day t := by
  simp [check_room_availability, List.all_eq_true]

theorem find_success (rooms : List RoomRow) :
    ∀ {bk : Bookings} {day : String} {times : List String} {isLab : Bool}
      {res : String} {bk' : Bookings},
      find_and_book_room bk day times isLab rooms = (res, bk') → res ≠ "TBA" →
      ∃ room ∈ rooms, roomIdOf room = res ∧
        (if isLab then labTypeMatch room else nonLabTypeMatch room) = true ∧
        check_room_availability bk res day times = true ∧
        bk' = times.foldl (fun b t => bkAdd b day t res) bk := by
  induction rooms with
  | nil =>
    intro bk day times isLab res bk' h hne
    simp only [find_and_book_room] at h
    exact absurd (congrArg Prod.fst h).symm hne
  | cons room rest ih =>
    intro bk day times isLab res bk' h hne
    simp only [find_and_book_room] at h
    by_cases hc : ((if isLab then labTypeMatch room else nonLabTypeMatch room) &&
        check_room_availability bk (roomIdOf room) day times) = true
    · rw [if_pos hc, Prod.mk.injEq] at h
      obtain ⟨h1, h2⟩ := h
      rw [Bool.and_eq_true] at hc
      refine ⟨room, List.mem_cons_self _ _, h1, hc.1, ?_, ?_⟩
      · rw [← h1]; exact hc.2
      · rw [← h2, ← h1]
    · rw [if_neg hc] at h
      obtain ⟨room', hm, hrest⟩ := ih h hne
      exact ⟨room', List.mem_cons_of_mem _ hm, hrest⟩

theorem find_fail (rooms : List RoomRow) :
    ∀ {bk : Bookings} {day : String} {times : List String} {isLab : Bool}
      {bk' : Bookings},
      (∀ room ∈ rooms, roomIdOf room ≠ "TBA") →
      find_and_book_room bk day times isLab rooms = ("TBA", bk') → bk' = bk := by
  induction rooms with
  | nil =>
    intro bk day times isLab bk' _ h
    exact (congrArg Prod.snd h).symm
  | cons room rest ih =>
    intro bk day times isLab bk' hTBA h
    simp only [find_and_book_room] at h
    by_cases hc : ((if isLab then labTypeMatch room else nonLabTypeMatch room) &&
        check_room_availability bk (roomIdOf room) day times) = true
    · rw [if_pos hc, Prod.mk.injEq] at h
      exact absurd h.1 (hTBA room (List.mem_cons_self _ _))
    · rw [if_neg hc] at h
      exact ih (fun r hr => hTBA r (List.mem_cons_of_mem _ hr)) h

theorem find_lab_TBA (rooms : List RoomRow) :
    ∀ (bk : Bookings) (day : String) (times : List String),
      (∀ room ∈ rooms, labTypeMatch room = false) →
      find_and_book_room bk day times true rooms = ("TBA", bk) := by
  induction rooms with
  | nil => intro bk day times _; rfl
  | cons room rest ih =>
    intro bk day times hno
    have h0 : labTypeMatch room = false := hno room (List.mem_cons_self _ _)
    have hstep : find_and_book_room bk day times true (room :: rest) =
        find_and_book_room bk day times true rest := by
      simp [find_and_book_room, h0]
    rw [hstep]
    exact ih bk day times (fun r hr => hno r (List.mem_cons_of_mem _ hr))

theorem ttGet_ttAppend (tt : List (String × List Entry)) (sec : String) (e : Entry)
    (sec' : String) :
    ttGet (ttAppend tt sec e) sec' =
      if sec' = sec then ttGet tt sec ++ [e] else ttGet tt sec' := by
  induction tt with
  | nil =>
    by_cases h : sec' = sec
    · subst h; simp [ttAppend, ttGet]
    · have hne : sec ≠ sec' := fun hc => h hc.symm
      simp [ttAppend, ttGet, hne, h]
  | cons p rest ih =>
    obtain ⟨s, es⟩ := p
    by_cases hs : s = sec
    · subst hs
      by_cases h : sec' = s
      · subst h; simp [ttAppend, ttGet]
      · have hne : s ≠ sec' := fun hc => h hc.symm
        simp [ttAppend, ttGet, hne, h]
    · by_cases h : s = sec'
      · have hne : ¬ (sec' = sec) := fun hc => hs (h.trans hc)
        simp [ttAppend, ttGet, hs, h, hne]
      · simp [ttAppend, ttGet, hs, h, ih]

theorem entriesOf_cons (p : String × List Entry) (rest : List (String × List Entry)) :
    entriesOf (p :: rest) = p.2 ++ entriesOf rest := by
  simp [entriesOf]

theorem mem_entriesOf_ttAppend {e' : Entry} (tt : List (String × List Entry))
    (sec : String) (e : Entry) (h : e' ∈ entriesOf (ttAppend tt sec e)) :
    e' ∈ entriesOf tt ∨ e' = e := by
  induction tt with
  | nil =>
    simp [ttAppend, entriesOf] at h
    exact Or.inr h
  | cons p rest ih =>
    obtain ⟨s, es⟩ := p
    by_cases hs : s = sec
    · subst hs
      simp only [ttAppend, if_pos rfl, entriesOf_cons] at h
      rcases List.mem_append.mp h with h1 | h1
      · rcases List.mem_append.mp h1 with h2 | h2
        · exact Or.inl (by rw [entriesOf_cons]; exact List.mem_append.mpr (Or.inl h2))
        · exact Or.inr (List.mem_singleton.mp h2)
      · exact Or.inl (by rw [entriesOf_cons]; exact List.mem_append.mpr (Or.inr h1))
    · simp only [ttAppend, if_neg hs, entriesOf_cons] at h
      rcases List.mem_append.mp h with h1 | h1
      · exact Or.inl (by rw [entriesOf_cons]; exact List.mem_append.mpr (Or.inl h1))
      · rcases ih h1 with h2 | h2
        · exact Or.inl (by rw [entriesOf_cons]; exact List.mem_append.mpr (Or.inr h2))
        · exact Or.inr h2

theorem mem_entriesOf_foldAppend {e' : Entry} (es : List Entry) (sec : String) :
    ∀ (tt : List (String × List Entry)),
      e' ∈ entriesOf (es.foldl (fun t e => ttAppend t sec e) tt) →
      e' ∈ entriesOf tt ∨ e' ∈ es := by
  induction es with
  | nil => intro tt h; exact Or.inl h
  | cons e rest ih =>
    intro tt h
    rcases ih (ttAppend tt sec e) h with h1 | h1
    · rcases mem_entriesOf_ttAppend tt sec e h1 with h2 | h2
      · exact Or.inl h2
      · exact Or.inr (by simp [h2])
    · exact Or.inr (List.mem_cons_of_mem _ h1)

theorem ttGet_foldAppend (es : List Entry) (sec : String) :
    ∀ (tt : List (String × List Entry)) (sec' : String),
      ttGet (es.foldl (fun t e => ttAppend t sec e) tt) sec' =
        if sec' = sec then ttGet tt sec ++ es else ttGet tt sec' := by
  induction es with
  | nil =>
    intro tt sec'
    by_cases h : sec' = sec
    · subst h; simp
    · simp [h]
  | cons e rest ih =>
    intro tt sec'
    simp only [List.foldl_cons, ih, ttGet_ttAppend]
    by_cases h : sec' = sec
    · subst h; simp
    · simp [h]

theorem totalSlots_pos : 0 < totalSlots := by decide

theorem totalSlots_eq_length : totalSlots = allPossibleSlots.length := rfl

theorem labSearchAux_some (rooms : List RoomRow) (startIdx : Nat) :
    ∀ (fuel done : Nat) (bk : Bookings) {day : String} {slots : List Slot}
      {bk' : Bookings} {cur' : Nat},
      labSearchAux rooms startIdx bk done fuel = some (day, slots, bk', cur') →
      slots.length = 3 ∧ (∀ s ∈ slots, s ∈ allPossibleSlots ∧ s.1 = day) := by
  intro fuel
  induction fuel with
  | zero => intro done bk day slots bk' cur' h; simp [labSearchAux] at h
  | succ n ih =>
    intro done bk day slots bk' cur' h
    simp only [labSearchAux] at h
    by_cases hlen : (startIdx + done) % totalSlots + 3 > allPossibleSlots.length
    · rw [if_pos hlen] at h
      exact ih (done + 1) bk h
    · rw [if_neg hlen] at h
      set idx := (startIdx + done) % totalSlots with hidx
      set sl := (allPossibleSlots.drop idx).take 3 with hsl
      by_cases hall : sl.all (fun s => s.1 = (sl.headD ("", 0, 0)).1) = true
      · rw [if_pos hall] at h
        by_cases hres : (find_and_book_room bk (sl.headD ("", 0, 0)).1
            (sl.map (fun s => timeStr s.2)) true rooms).1 ≠ "TBA"
        · rw [if_pos hres] at h
          injection h with h1
          obtain ⟨hday, h2⟩ : (sl.headD ("", 0, 0)).1 = day ∧ _ := Prod.mk.injEq .. ▸ h1
          obtain ⟨hslots, _⟩ : sl = slots ∧ _ := Prod.mk.injEq .. ▸ h2
          subst hslots
          constructor
          · rw [hsl]
            rw [List.length_take, List.length_drop]
            omega
          · intro s hs
            refine ⟨?_, ?_⟩
            · exact List.drop_subset idx allPossibleSlots (List.take_subset 3 _ (hsl ▸ hs))
            · rw [← hday]
              have := List.all_eq_true.mp hall s (hsl ▸ hs)
              exact of_decide_eq_true this
        · rw [if_neg hres] at h
          exact ih (done + 1) _ h
      · rw [if_neg hall] at h
        exact ih (done + 1) bk h

theorem theorySearchAux_some (rooms : List RoomRow) :
    ∀ (fuel : Nat) (bk : Bookings) (cur : Nat) {slot : Slot} {rId : String}
      {bk' : Bookings} {cur' : Nat},
      theorySearchAux rooms bk cur fuel = some (slot, rId, bk', cur') →
      slot ∈ allPossibleSlots := by
  intro fuel
  induction fuel with
  | zero => intro bk cur slot rId bk' cur' h; simp [theorySearchAux] at h
  | succ n ih =>
    intro bk cur slot rId bk' cur' h
    simp only [theorySearchAux] at h
    by_cases hres : (find_and_book_room bk
        (allPossibleSlots.getD (cur % totalSlots) ("", 0, 0)).1
        [timeStr (allPossibleSlots.getD (cur % totalSlots) ("", 0, 0)).2] false rooms).1 ≠ "TBA"
    · rw [if_pos hres] at h
      injection h with h1
      obtain ⟨hslot, _⟩ : allPossibleSlots.getD (cur % totalSlots) ("", 0, 0) = slot ∧ _ :=
        Prod.mk.injEq .. ▸ h1
      rw [← hslot]
      exact getD_mem _ _ _ (totalSlots_eq_length ▸ Nat.mod_lt _ totalSlots_pos)
    · rw [if_neg hres] at h
      exact ih _ _ h

theorem theoryLoop_entries (rooms : List RoomRow) (sec subject teacherName : String) :
    ∀ (n : Nat) (st st' : GenState),
      theoryLoop rooms sec subject teacherName st n = .ok st' →
      ∀ e ∈ entriesOf st'.tt, e ∈ entriesOf st.tt ∨ EntryOK e := by
  intro n
  induction n with
  | zero =>
    intro st st' h e he
    injection h with h1
    exact Or.inl (h1 ▸ he)
  | succ m ih =>
    intro st st' h e he
    simp only [theoryLoop] at h
    cases hsearch : theorySearchAux rooms st.bk st.cur totalSlots with
    | none => rw [hsearch] at h; exact absurd h (by simp)
    | some r =>
      obtain ⟨slot, rId, bk', cur'⟩ := r
      rw [hsearch] at h
      rcases ih _ _ h e he with h1 | h1
      · rcases mem_entriesOf_ttAppend _ _ _ h1 with h2 | h2
        · exact Or.inl h2
        · refine Or.inr ⟨slot, theorySearchAux_some rooms _ _ _ hsearch, ?_, ?_⟩
          · rw [h2]
          · rw [h2]
      · exact Or.inr h1

theorem theoryLoop_ok_or_np (rooms : List RoomRow) (sec subject teacherName : String) :
    ∀ (n : Nat) (st : GenState),
      (∃ st', theoryLoop rooms sec subject teacherName st n = .ok st') ∨
        theoryLoop rooms sec subject teacherName st n = .error "not possible" := by
  intro n
  induction n with
  | zero => intro st; exact Or.inl ⟨st, rfl⟩
  | succ m ih =>
    intro st
    simp only [theoryLoop]
    cases hsearch : theorySearchAux rooms st.bk st.cur totalSlots with
    | none => exact Or.inr rfl
    | some r =>
      obtain ⟨slot, rId, bk', cur'⟩ := r
      exact ih _

theorem processSubject_entries (rooms : List RoomRow)
    (mapping : String → List TeacherInfo) (sec subject : String)
    {st st' : GenState} (h : processSubject rooms mapping sec subject st = .ok st') :
    ∀ e ∈ entriesOf st'.tt, e ∈ entriesOf st.tt ∨ EntryOK e := by
  intro e he
  simp only [processSubject] at h
  cases hmap : mapping subject with
  | nil => rw [hmap] at h; exact absurd h (by simp)
  | cons t0 rest =>
    rw [hmap] at h
    dsimp only at h
    by_cases hlab : isLabSubject subject = true
    · rw [if_pos hlab] at h
      cases hsearch : labSearchAux rooms st.cur st.bk 0 totalSlots with
      | none => rw [hsearch] at h; exact absurd h (by simp)
      | some r =>
        obtain ⟨day, slots, bk', cur'⟩ := r
        rw [hsearch] at h
        injection h with h1
        rw [← h1] at he
        rcases mem_entriesOf_foldAppend _ _ _ he with h2 | h2
        · exact Or.inl h2
        · obtain ⟨s, hsmem, hse⟩ := List.mem_map.mp h2
          obtain ⟨_, hsprop⟩ := labSearchAux_some rooms st.cur totalSlots 0 st.bk hsearch
          refine Or.inr ⟨s, (hsprop s hsmem).1, ?_, ?_⟩
          · rw [← hse]; exact ((hsprop s hsmem).2).symm
          · rw [← hse]; rfl
    · rw [if_neg hlab] at h
      exact theoryLoop_entries rooms sec subject t0.name _ st st' h e he

theorem processSubject_ok_or_np (rooms : List RoomRow)
    (mapping : String → List TeacherInfo) (sec subject : String) (st : GenState)
    (hmap : mapping subject ≠ []) :
    (∃ st', processSubject rooms mapping sec subject st = .ok st') ∨
      processSubject rooms mapping sec subject st = .error "not possible" := by
  simp only [processSubject]
  cases hm : mapping subject with
  | nil => exact absurd hm hmap
  | cons t0 rest =>
    dsimp only
    by_cases hlab : isLabSubject subject = true
    · rw [if_pos hlab]
      cases hsearch : labSearchAux rooms st.cur st.bk 0 totalSlots with
      | none => exact Or.inr rfl
      | some r =>
        obtain ⟨day, slots, bk', cur'⟩ := r
        exact Or.inl ⟨_, rfl⟩
    · rw [if_neg hlab]
      exact theoryLoop_ok_or_np rooms sec subject t0.name _ st

theorem labSearchAux_none_of_no_lab_room (rooms : List RoomRow)
    (hno : ∀ room ∈ rooms, labTypeMatch room = false) (startIdx : Nat) :
    ∀ (fuel done : Nat) (bk : Bookings),
      labSearchAux rooms startIdx bk done fuel = none := by
  intro fuel
  induction fuel with
  | zero => intro done bk; rfl
  | succ n ih =>
    intro done bk
    simp only [labSearchAux]
    by_cases hlen : (startIdx + done) % totalSlots + 3 > allPossibleSlots.length
    · rw [if_pos hlen]
      exact ih (done + 1) bk
    · rw [if_neg hlen]
      set sl := (allPossibleSlots.drop ((startIdx + done) % totalSlots)).take 3 with hsl
      by_cases hall : sl.all (fun s => s.1 = (sl.headD ("", 0, 0)).1) = true
      · rw [if_pos hall]
        rw [find_lab_TBA rooms bk (sl.headD ("", 0, 0)).1 (sl.map (fun s => timeStr s.2)) hno]
        rw [if_neg (fun hc => hc rfl)]
        exact ih (done + 1) bk
      · rw [if_neg hall]
        exact ih (done + 1) bk

theorem processSubject_np_of_lab (rooms : List RoomRow)
    (mapping : String → List TeacherInfo) (sec subject : String) (st : GenState)
    (hno : ∀ room ∈ rooms, labTypeMatch room = false)
    (hmap : mapping subject ≠ []) (hlab : isLabSubject subject = true) :
    processSubject rooms mapping sec subject st = .error "not possible" := by
  simp only [processSubject]
  cases hm : mapping subject with
  | nil => exact absurd hm hmap
  | cons t0 rest =>
    dsimp only
    rw [if_pos hlab, labSearchAux_none_of_no_lab_room rooms hno st.cur totalSlots 0 st.bk]

theorem foldlM_rel {α σ : Type} (P : σ → σ → Prop) (hrefl : ∀ s, P s s)
    (htrans : ∀ a b c, P a b → P b c → P a c)
    (f : σ → α → Except String σ) :
    ∀ (l : List α),
      (∀ st a st', a ∈ l → f st a = .ok st' → P st st') →
      ∀ (st st' : σ), l.foldlM f st = .ok st' → P st st' := by
  intro l
  induction l with
  | nil =>
    intro _ st st' h
    injection h with h1
    exact h1 ▸ hrefl st
  | cons a rest ih =>
    intro hf st st' h
    rw [List.foldlM_cons] at h
    cases h1 : f st a with
    | error msg => rw [h1] at h; exact Except.noConfusion h
    | ok st1 =>
      rw [h1] at h
      have h2 : rest.foldlM f st1 = .ok st' := h
      exact htrans st st1 st' (hf st a st1 (List.mem_cons_self _ _) h1)
        (ih (fun s b s' hb => hf s b s' (List.mem_cons_of_mem _ hb)) st1 st' h2)

theorem foldlM_ok_or_np {α : Type} (f : GenState → α → Except String GenState) :
    ∀ (l : List α),
      (∀ st a, a ∈ l →
        (∃ st', f st a = .ok st') ∨ f st a = .error "not possible") →
      ∀ st, (∃ st', l.foldlM f st = .ok st') ∨
        l.foldlM f st = .error "not possible" := by
  intro l
  induction l with
  | nil => intro _ st; exact Or.inl ⟨st, rfl⟩
  | cons a rest ih =>
    intro hall st
    rw [List.foldlM_cons]
    rcases hall st a (List.mem_cons_self _ _) with ⟨st1, h1⟩ | h1
    · rw [h1]
      exact ih (fun s b hb => hall s b (List.mem_cons_of_mem _ hb)) st1
    · rw [h1]
      exact Or.inr rfl

theorem foldlM_np_of_mem {α : Type} (f : GenState → α → Except String GenState) :
    ∀ (l : List α) (a0 : α), a0 ∈ l →
      (∀ st, f st a0 = .error "not possible") →
      (∀ st a, a ∈ l →
        (∃ st', f st a = .ok st') ∨ f st a = .error "not possible") →
      ∀ st, l.foldlM f st = .error "not possible" := by
  intro l
  induction l with
  | nil => intro a0 h; simp at h
  | cons a rest ih =>
    intro a0 hmem hnp hall st
    rw [List.foldlM_cons]
    rcases List.mem_cons.mp hmem with h0 | h0
    · rw [← h0, hnp st]
      rfl
    · rcases hall st a (List.mem_cons_self _ _) with ⟨st1, h1⟩ | h1
      · rw [h1]
        exact ih a0 h0 hnp (fun s b hb => hall s b (List.mem_cons_of_mem _ hb)) st1
      · rw [h1]
        rfl

theorem processRow_eq_fold (rooms : List RoomRow) (mapping : String → List TeacherInfo)
    (idx : Nat) (row : SectionRow) (st : GenState)
    (h1 : rowSectionName idx row ≠ "") (h2 : rowSectionName idx row ≠ "nan")
    (h3 : rowRawSubjects row ≠ "") :
    processRow rooms mapping idx row st =
      (rowSubjectList row).foldlM
        (fun s subj => processSubject rooms mapping (rowSectionName idx row) subj s) st := by
  simp only [processRow]
  rw [if_neg (by simp [h1, h2]), if_neg h3]

theorem processRow_entries (rooms : List RoomRow) (mapping : String → List TeacherInfo)
    (idx : Nat) (row : SectionRow) {st st' : GenState}
    (h : processRow rooms mapping idx row st = .ok st') :
    ∀ e ∈ entriesOf st'.tt, e ∈ entriesOf st.tt ∨ EntryOK e := by
  simp only [processRow] at h
  by_cases hg1 : (rowSectionName idx row = "" || rowSectionName idx row = "nan") = true
  · rw [if_pos hg1] at h
    exact Except.noConfusion h
  · rw [if_neg hg1] at h
    by_cases hg2 : rowRawSubjects row = ""
    · rw [if_pos hg2] at h
      exact Except.noConfusion h
    · rw [if_neg hg2] at h
      exact foldlM_rel EntriesGrow
        (fun _ _ he => Or.inl he)
        (fun a b c hab hbc e he => (hbc e he).elim (fun h2 => hab e h2) Or.inr)
        _ _ (fun s subj s' _ hps => processSubject_entries rooms mapping _ subj hps)
        st st' h

theorem processRow_ok_or_np (rooms : List RoomRow) (mapping : String → List TeacherInfo)
    (idx : Nat) (row : SectionRow) (st : GenState)
    (h1 : rowSectionName idx row ≠ "") (h2 : rowSectionName idx row ≠ "nan")
    (h3 : rowRawSubjects row ≠ "")
    (hteach : ∀ subj ∈ rowSubjectList row, mapping subj ≠ []) :
    (∃ st', processRow rooms mapping idx row st = .ok st') ∨
      processRow rooms mapping idx row st = .error "not possible" := by
  rw [processRow_eq_fold rooms mapping idx row st h1 h2 h3]
  exact foldlM_ok_or_np _ _
    (fun s subj hsubj => processSubject_ok_or_np rooms mapping _ subj s (hteach subj hsubj)) st

theorem processRow_np_of_lab (rooms : List RoomRow) (mapping : String → List TeacherInfo)
    (idx : Nat) (row : SectionRow) (st : GenState)
    (hno : ∀ room ∈ rooms, labTypeMatch room = false)
    (h1 : rowSectionName idx row ≠ "") (h2 : rowSectionName idx row ≠ "nan")
    (h3 : rowRawSubjects row ≠ "")
    (hteach : ∀ subj ∈ rowSubjectList row, mapping subj ≠ [])
    (hlab : ∃ subj ∈ rowSubjectList row, isLabSubject subj = true) :
    processRow rooms mapping idx row st = .error "not possible" := by
  obtain ⟨subj0, hsubj0, hlab0⟩ := hlab
  rw [processRow_eq_fold rooms mapping idx row st h1 h2 h3]
  exact foldlM_np_of_mem _ _ subj0 hsubj0
    (fun s => processSubject_np_of_lab rooms mapping _ subj0 s hno (hteach subj0 hsubj0) hlab0)
    (fun s subj hsubj => processSubject_ok_or_np rooms mapping _ subj s (hteach subj hsubj)) st

theorem gen_entries_valid {dfs : List SectionRow} {mapping : String → List TeacherInfo}
    {rooms : List RoomRow} {tt : List (String × List Entry)} {bk : Bookings}
    (h : generateTimetables dfs mapping rooms = .ok (tt, bk)) :
    ∀ e ∈ entriesOf tt, EntryOK e := by
  simp only [generateTimetables] at h
  cases hfold : dfs.enum.foldlM (fun st p => processRow rooms mapping p.1 p.2 st)
      (⟨[], 0, []⟩ : GenState) with
  | error msg =>
    rw [hfold] at h
    exact Except.noConfusion h
  | ok stf =>
    rw [hfold] at h
    injection h with h1
    have htt : stf.tt = tt := congrArg Prod.fst h1
    intro e he
    have hrel := foldlM_rel EntriesGrow
      (fun _ _ he' => Or.inl he')
      (fun a b c hab hbc e' he' => (hbc e' he').elim (fun h2 => hab e' h2) Or.inr)
      _ dfs.enum
      (fun s p s' _ hps => processRow_entries rooms mapping p.1 p.2 hps)
      ⟨[], 0, []⟩ stf hfold
    rcases hrel e (htt ▸ he) with h2 | h2
    · exact absurd h2 (by simp [entriesOf])
    · exact h2

/-- C1 (counterexample): with one section whose single subject carries 35
credit hours and two non-lab rooms, the search wraps around the 34-slot week
and books the same section with the same teacher twice at Monday 8:00-9:00
(in two different rooms) — the code keeps no teacher or section occupancy,
so the claimed teacher/section parts of the invariant fail. -/
theorem C1_counterexample :
    (generateTimetables wSecsMath wMap35 wRooms2).toOption.map
      (fun p => ((ttGet p.1 "CS1").filter
        (fun e => e.day == "Monday" && e.time == "8:00-9:00" && e.teacher == "T")).length) =
      some 2 := by decide

/-- C1 (amended): only the room part of the invariant holds.  Every
successful `find_and_book_room` call books a room that was absent from the
ledger at every covered (day, hour) before the call and is present
afterwards, so no room id is ever recorded twice for the same (day, hour);
teachers and sections are not tracked at all and can be double-booked. -/
theorem C1_rooms_never_double_booked {bk : Bookings} {day : String}
    {times : List String} {isLab : Bool} {rooms : List RoomRow} {res : String}
    {bk' : Bookings}
    (h : find_and_book_room bk day times isLab rooms = (res, bk'))
    (hne : res ≠ "TBA") :
    ∀ t ∈ times, res ∉ bkGet bk day t ∧ res ∈ bkGet bk' day t := by
  obtain ⟨room, hm, hid, htype, havail, hbk'⟩ := find_success rooms h hne
  intro t ht
  have h1 : res ∉ bkGet bk day t := (check_avail_iff bk res day times).mp havail t ht
  refine ⟨h1, ?_⟩
  rw [hbk', bkGet_foldAdd, if_pos ⟨rfl, ht⟩, if_neg h1]
  simp

/-- C1 witness: the room freshness property evaluated on a concrete booking. -/
theorem C1_rooms_never_double_booked_witness :
    ("R1" : String) ≠ "TBA" ∧
      ("R1" ∉ bkGet [] "Monday" "8:00-9:00" ∧
        "R1" ∈ bkGet [(("Monday", "8:00-9:00"), ["R1"])] "Monday" "8:00-9:00") :=
  ⟨by decide,
    C1_rooms_never_double_booked
      (show find_and_book_room [] "Monday" ["8:00-9:00"] false wRooms1 =
        ("R1", [(("Monday", "8:00-9:00"), ["R1"])]) from rfl)
      (by decide) "8:00-9:00" (by decide)⟩

/-- C2: when no room of the roster passes the lab-room test and the section
rows are well-formed (no fault-check error fires) while at least one listed
subject is a lab subject, `generate_timetables` fails with the `not
possible` (Infeasible) error, and hence returns no timetable at all. -/
theorem C2_no_lab_room_infeasible (sectionsDf : List SectionRow)
    (mapping : String → List TeacherInfo) (roomsDf : List RoomRow)
    (hrooms : ∀ room ∈ roomsDf, labTypeMatch room = false)
    (hwf : ∀ p ∈ sectionsDf.enum, rowSectionName p.1 p.2 ≠ "" ∧
      rowSectionName p.1 p.2 ≠ "nan" ∧ rowRawSubjects p.2 ≠ "")
    (hteach : ∀ p ∈ sectionsDf.enum, ∀ subj ∈ rowSubjectList p.2, mapping subj ≠ [])
    (hlab : ∃ p ∈ sectionsDf.enum, ∃ subj ∈ rowSubjectList p.2, isLabSubject subj = true) :
    generateTimetables sectionsDf mapping roomsDf = .error "not possible" := by
  obtain ⟨p0, hp0, hlab0⟩ := hlab
  simp only [generateTimetables]
  have hfold : sectionsDf.enum.foldlM (fun st p => processRow roomsDf mapping p.1 p.2 st)
      (⟨[], 0, []⟩ : GenState) = .error "not possible" :=
    foldlM_np_of_mem _ sectionsDf.enum p0 hp0
      (fun st => processRow_np_of_lab roomsDf mapping p0.1 p0.2 st hrooms
        (hwf p0 hp0).1 (hwf p0 hp0).2.1 (hwf p0 hp0).2.2 (hteach p0 hp0) hlab0)
      (fun st p hp => processRow_ok_or_np roomsDf mapping p.1 p.2 st
        (hwf p hp).1 (hwf p hp).2.1 (hwf p hp).2.2 (hteach p hp))
      ⟨[], 0, []⟩
  rw [hfold]
  rfl

/-- C2 witness: the spec's own failure scenario — a lab subject with a
roster containing only a non-lab room — evaluated concretely. -/
theorem C2_no_lab_room_infeasible_witness :
    (∀ room ∈ wRooms1, labTypeMatch room = false) ∧
      (∃ p ∈ wSecsLab.enum, ∃ subj ∈ rowSubjectList p.2, isLabSubject subj = true) ∧
      generateTimetables wSecsLab wMapLab wRooms1 = .error "not possible" :=
  ⟨by decide, by decide,
    C2_no_lab_room_infeasible wSecsLab wMapLab wRooms1
      (by decide) (by decide) (by decide) (by decide)⟩

/-- C6 (counterexample): the room `lab1` has type `x`, which does not
contain `lab`, yet the lab session is booked into it (the code also accepts
a room whose id contains `lab`), refuting the claim that room
classification depends only on the type column. -/
theorem C6_counterexample :
    generateTimetables wSecsLab wMapLab wRoomsLabId =
      .ok ([("CS1",
          [⟨"net lab", "T", "Monday", "8:00-9:00", "[LAB]"⟩,
            ⟨"net lab", "T", "Monday", "9:00-10:00", "[LAB]"⟩,
            ⟨"net lab", "T", "Monday", "10:00-11:00", "[LAB]"⟩])],
        [(("Monday", "8:00-9:00"), ["lab1"]),
          (("Monday", "9:00-10:00"), ["lab1"]),
          (("Monday", "10:00-11:00"), ["lab1"])]) ∧
      strContains (pyLower "x") "lab" = false :=
  ⟨rfl, by decide⟩

/-- C6 (amended): every room actually booked satisfies the code's room-type
tests: for a lab request the room's type or id contains `lab`
(case-insensitive); for a non-lab request the room's type contains `ke` or
`class` or its id contains `ke`, and its type does not contain `lab`. -/
theorem C6_room_type_matching {bk : Bookings} {day : String}
    {times : List String} {isLab : Bool} {rooms : List RoomRow} {res : String}
    {bk' : Bookings}
    (h : find_and_book_room bk day times isLab rooms = (res, bk'))
    (hne : res ≠ "TBA") :
    ∃ room ∈ rooms, roomIdOf room = res ∧
      (isLab = true → labTypeMatch room = true) ∧
      (isLab = false → nonLabTypeMatch room = true) := by
  obtain ⟨room, hm, hid, htype, _, _⟩ := find_success rooms h hne
  refine ⟨room, hm, hid, ?_, ?_⟩
  · intro hl; rw [hl] at htype; simpa using htype
  · intro hl; rw [hl] at htype; simpa using htype

/-- C6 witness: the room-type property evaluated on a concrete lab booking. -/
theorem C6_room_type_matching_witness :
    ∃ room ∈ wRoomsLab, roomIdOf room = "L1" ∧
      ((true : Bool) = true → labTypeMatch room = true) ∧
      ((true : Bool) = false → nonLabTypeMatch room = true) :=
  C6_room_type_matching
    (show find_and_book_room [] "Monday" ["8:00-9:00"] true wRoomsLab =
      ("L1", [(("Monday", "8:00-9:00"), ["L1"])]) from rfl)
    (by decide)

/-- C10 (counterexample): a roster room whose id is literally `TBA` defeats
the sentinel: `find_and_book_room` books it, mutates the ledger, and still
returns `TBA`, so a `TBA` result does not imply the ledger is unchanged. -/
theorem C10_counterexample :
    find_and_book_room [] "Monday" ["8:00-9:00"] false wRoomsTBA =
      ("TBA", [(("Monday", "8:00-9:00"), ["TBA"])]) ∧
      ([(("Monday", "8:00-9:00"), ["TBA"])] : Bookings) ≠ [] :=
  ⟨rfl, by decide⟩

/-- C10 (amended): provided no roster room has id `TBA`, the search-and-book
step is atomic: a `TBA` result leaves the ledger unchanged, and a successful
result appends exactly the returned room id at exactly the requested
(day, time) keys and changes nothing else. -/
theorem C10_atomic_booking {bk : Bookings} {day : String} {times : List String}
    {isLab : Bool} {rooms : List RoomRow} {res : String} {bk' : Bookings}
    (hTBA : ∀ room ∈ rooms, roomIdOf room ≠ "TBA")
    (h : find_and_book_room bk day times isLab rooms = (res, bk')) :
    (res = "TBA" → bk' = bk) ∧
      (res ≠ "TBA" →
        (∀ t ∈ times, bkGet bk' day t = bkGet bk day t ++ [res]) ∧
          (∀ d' t', ¬ (d' = day ∧ t' ∈ times) → bkGet bk' d' t' = bkGet bk d' t')) := by
  constructor
  · intro hres
    rw [hres] at h
    exact find_fail rooms hTBA h
  · intro hres
    obtain ⟨room, hm, hid, htype, havail, hbk'⟩ := find_success rooms h hres
    constructor
    · intro t ht
      rw [hbk', bkGet_foldAdd, if_pos ⟨rfl, ht⟩,
        if_neg ((check_avail_iff bk res day times).mp havail t ht)]
    · intro d' t' hne2
      rw [hbk', bkGet_foldAdd, if_neg hne2]

/-- C10 witness: the atomicity property evaluated on a concrete two-hour
booking. -/
theorem C10_atomic_booking_witness :
    (("R1" : String) = "TBA" →
        ([(("Monday", "8:00-9:00"), ["R1"]), (("Monday", "9:00-10:00"), ["R1"])] : Bookings) = []) ∧
      (("R1" : String) ≠ "TBA" →
        (∀ t ∈ ["8:00-9:00", "9:00-10:00"],
            bkGet [(("Monday", "8:00-9:00"), ["R1"]), (("Monday", "9:00-10:00"), ["R1"])]
              "Monday" t = bkGet [] "Monday" t ++ ["R1"]) ∧
          (∀ d' t', ¬ (d' = "Monday" ∧ t' ∈ ["8:00-9:00", "9:00-10:00"]) →
            bkGet [(("Monday", "8:00-9:00"), ["R1"]), (("Monday", "9:00-10:00"), ["R1"])] d' t' =
              bkGet [] d' t')) :=
  C10_atomic_booking (by decide)
    (show find_and_book_room [] "Monday" ["8:00-9:00", "9:00-10:00"] false wRooms1 =
      ("R1", [(("Monday", "8:00-9:00"), ["R1"]), (("Monday", "9:00-10:00"), ["R1"])]) from rfl)

/-- C3 (counterexample): a theory subject with 8 credit hours is committed
as eight separate one-hour bookings that spill from Monday onto Tuesday —
not one contiguous block of `duration_hours` hours on a single day. -/
theorem C3_counterexample :
    (generateTimetables wSecsMath wMap8 wRooms1).toOption.map
      (fun p => (ttGet p.1 "CS1").map (fun e => e.day)) =
      some ["Monday", "Monday", "Monday", "Monday", "Monday", "Monday", "Monday",
        "Tuesday"] := by decide

/-- C3 (amended): every committed timetable entry covers exactly one
clock hour taken from its day's slot list; a multi-hour theory subject is
realised as that many independently placed one-hour entries (possibly on
different days), and a lab as three same-day slots, not as one guaranteed
contiguous block. -/
theorem C3_entries_single_hour_slots (dfs : List SectionRow)
    (mapping : String → List TeacherInfo) (rooms : List RoomRow)
    (tt : List (String × List Entry)) (bk : Bookings)
    (h : generateTimetables dfs mapping rooms = .ok (tt, bk)) :
    ∀ e ∈ entriesOf tt, ∃ s, s ∈ allPossibleSlots ∧ e.day = s.1 ∧
      e.time = timeStr s.2 ∧ s.2 ∈ timeSlots s.1 ∧ s.2.2 = s.2.1 + 1 := by
  intro e he
  obtain ⟨s, hs, hday, htime⟩ := gen_entries_valid h e he
  have hfacts : ∀ s ∈ allPossibleSlots, s.2 ∈ timeSlots s.1 ∧ s.2.2 = s.2.1 + 1 := by decide
  exact ⟨s, hs, hday, htime, (hfacts s hs).1, (hfacts s hs).2⟩

/-- C3 witness: the single-hour-slot property evaluated on a concrete
committed entry. -/
theorem C3_entries_single_hour_slots_witness :
    ∃ s, s ∈ allPossibleSlots ∧
      (Entry.mk "Math" "T" "Monday" "8:00-9:00" "[R1]").day = s.1 ∧
      (Entry.mk "Math" "T" "Monday" "8:00-9:00" "[R1]").time = timeStr s.2 ∧
      s.2 ∈ timeSlots s.1 ∧ s.2.2 = s.2.1 + 1 :=
  C3_entries_single_hour_slots wSecsMath wMap1 wRooms1
    [("CS1", [⟨"Math", "T", "Monday", "8:00-9:00", "[R1]"⟩])]
    [(("Monday", "8:00-9:00"), ["R1"])] rfl
    ⟨"Math", "T", "Monday", "8:00-9:00", "[R1]"⟩ (by decide)

/-- C4 (counterexample): the lab subject `net lab` produces exactly one
3-hour block with its label unchanged — there is no odd/even roll-number
split, no `(Odd Roll#)` or `(Even Roll#)` suffix, and no second session. -/
theorem C4_counterexample :
    (generateTimetables wSecsLab wMapLab wRoomsLab).toOption.map
      (fun p => (ttGet p.1 "CS1").map (fun e => (e.subject, e.time))) =
      some [("net lab", "8:00-9:00"), ("net lab", "9:00-10:00"),
        ("net lab", "10:00-11:00")] := by decide

/-- C4 (amended): a successfully scheduled lab subject appends exactly one
block of three same-day slot entries to its section, each labelled with the
unmodified subject name and the `[LAB]` room placeholder, and leaves every
other section untouched. -/
theorem C4_lab_single_block (rooms : List RoomRow)
    (mapping : String → List TeacherInfo) (sec subject : String)
    (st st' : GenState) (hlab : isLabSubject subject = true)
    (h : processSubject rooms mapping sec subject st = .ok st') :
    ∃ (teacher day : String) (slots : List Slot), slots.length = 3 ∧
      (∀ s ∈ slots, s ∈ allPossibleSlots ∧ s.1 = day) ∧
      ∀ sec', ttGet st'.tt sec' =
        if sec' = sec then ttGet st.tt sec ++ slots.map (mkLabEntry subject teacher day)
        else ttGet st.tt sec' := by
  simp only [processSubject] at h
  cases hmap : mapping subject with
  | nil => rw [hmap] at h; exact Except.noConfusion h
  | cons t0 rest =>
    rw [hmap] at h
    dsimp only at h
    rw [if_pos hlab] at h
    cases hsearch : labSearchAux rooms st.cur st.bk 0 totalSlots with
    | none => rw [hsearch] at h; exact Except.noConfusion h
    | some r =>
      obtain ⟨day, slots, bk', cur'⟩ := r
      rw [hsearch] at h
      injection h with h1
      obtain ⟨hlen, hprop⟩ := labSearchAux_some rooms st.cur totalSlots 0 st.bk hsearch
      refine ⟨t0.name, day, slots, hlen, hprop, ?_⟩
      intro sec'
      rw [← h1]
      exact ttGet_foldAppend (slots.map (mkLabEntry subject t0.name day)) sec st.tt sec'

/-- C4 witness: the single-lab-block property evaluated on a concrete lab
placement. -/
theorem C4_lab_single_block_witness :
    isLabSubject "net lab" = true ∧
      (∃ (teacher day : String) (slots : List Slot), slots.length = 3 ∧
        (∀ s ∈ slots, s ∈ allPossibleSlots ∧ s.1 = day) ∧
        ∀ sec', ttGet (GenState.mk
            [(("Monday", "8:00-9:00"), ["L1"]), (("Monday", "9:00-10:00"), ["L1"]),
              (("Monday", "10:00-11:00"), ["L1"])] 3
            [("CS1",
              [⟨"net lab", "T", "Monday", "8:00-9:00", "[LAB]"⟩,
                ⟨"net lab", "T", "Monday", "9:00-10:00", "[LAB]"⟩,
                ⟨"net lab", "T", "Monday", "10:00-11:00", "[LAB]"⟩])]).tt sec' =
          if sec' = "CS1" then
            ttGet (GenState.mk [] 0 []).tt "CS1" ++
              slots.map (mkLabEntry "net lab" teacher day)
          else ttGet (GenState.mk [] 0 []).tt sec') :=
  ⟨by decide,
    C4_lab_single_block wRoomsLab wMapLab "CS1" "net lab" ⟨[], 0, []⟩ _ (by decide) rfl⟩

/-- C5: no committed booking ever covers a break hour: every entry of a
successful run carries a slot from `all_possible_slots`, and no hour of any
such slot lies in [12,13), nor in [12,14) on Friday. -/
theorem C5_break_never_covered (dfs : List SectionRow)
    (mapping : String → List TeacherInfo) (rooms : List RoomRow)
    (tt : List (String × List Entry)) (bk : Bookings)
    (h : generateTimetables dfs mapping rooms = .ok (tt, bk)) :
    ∀ e ∈ entriesOf tt, ∃ s, s ∈ allPossibleSlots ∧ e.day = s.1 ∧
      e.time = timeStr s.2 ∧
      ∀ h', s.2.1 ≤ h' → h' < s.2.2 →
        ¬ (12 ≤ h' ∧ h' < 13) ∧ (s.1 = "Friday" → ¬ (12 ≤ h' ∧ h' < 14)) := by
  intro e he
  obtain ⟨s, hs, hday, htime⟩ := gen_entries_valid h e he
  refine ⟨s, hs, hday, htime, ?_⟩
  intro h' h1 h2
  have hub : ∀ s ∈ allPossibleSlots, s.2.2 ≤ 16 := by decide
  have hbounded : ∀ s ∈ allPossibleSlots, ∀ h' ∈ List.range 16,
      s.2.1 ≤ h' → h' < s.2.2 →
      ¬ (12 ≤ h' ∧ h' < 13) ∧ (s.1 = "Friday" → ¬ (12 ≤ h' ∧ h' < 14)) := by decide
  exact hbounded s hs h' (List.mem_range.mpr (lt_of_lt_of_le h2 (hub s hs))) h1 h2

/-- C5 witness: the break property evaluated on a concrete committed entry. -/
theorem C5_break_never_covered_witness :
    ∃ s, s ∈ allPossibleSlots ∧
      (Entry.mk "net lab" "T" "Monday" "8:00-9:00" "[LAB]").day = s.1 ∧
      (Entry.mk "net lab" "T" "Monday" "8:00-9:00" "[LAB]").time = timeStr s.2 ∧
      ∀ h', s.2.1 ≤ h' → h' < s.2.2 →
        ¬ (12 ≤ h' ∧ h' < 13) ∧ (s.1 = "Friday" → ¬ (12 ≤ h' ∧ h' < 14)) :=
  C5_break_never_covered wSecsLab wMapLab wRoomsLab
    [("CS1",
      [⟨"net lab", "T", "Monday", "8:00-9:00", "[LAB]"⟩,
        ⟨"net lab", "T", "Monday", "9:00-10:00", "[LAB]"⟩,
        ⟨"net lab", "T", "Monday", "10:00-11:00", "[LAB]"⟩])]
    [(("Monday", "8:00-9:00"), ["L1"]), (("Monday", "9:00-10:00"), ["L1"]),
      (("Monday", "10:00-11:00"), ["L1"])] rfl
    ⟨"net lab", "T", "Monday", "8:00-9:00", "[LAB]"⟩ (by decide)

/-- C7 (counterexample): the code never sorts sessions by duration.  With
the roster listing the 1-hour `Math` before the 3-hour `phys lab`, the
1-hour session is attempted and placed first (at the earliest slot, Monday
8:00), the 3-hour lab only afterwards — refuting descending-duration
ordering. -/
theorem C7_counterexample :
    (generateTimetables wSecsMixed wMapMixed wRoomsMixed).toOption.map
      (fun p => (ttGet p.1 "CS1").map (fun e => (e.subject, e.time))) =
      some [("Math", "8:00-9:00"), ("phys lab", "9:00-10:00"),
        ("phys lab", "10:00-11:00"), ("phys lab", "11:00-12:00")] := by decide

/-- C7 (amended): sessions are processed in roster order (section rows in
sheet order, subjects in listed order) with no sorting of any kind;
concretely, the 1-hour `Math` listed first is booked into Monday 8:00-9:00
before the 3-hour `phys lab` is placed at 9:00-12:00. -/
theorem C7_roster_order :
    generateTimetables wSecsMixed wMapMixed wRoomsMixed =
      .ok ([("CS1",
          [⟨"Math", "T", "Monday", "8:00-9:00", "[R1]"⟩,
            ⟨"phys lab", "T", "Monday", "9:00-10:00", "[LAB]"⟩,
            ⟨"phys lab", "T", "Monday", "10:00-11:00", "[LAB]"⟩,
            ⟨"phys lab", "T", "Monday", "11:00-12:00", "[LAB]"⟩])],
        [(("Monday", "8:00-9:00"), ["R1"]),
          (("Monday", "9:00-10:00"), ["L1"]),
          (("Monday", "10:00-11:00"), ["L1"]),
          (("Monday", "11:00-12:00"), ["L1"])]) := rfl

/-- C8 (counterexample): the code contains no teacher-dependent
earliest-start rule.  The teacher `Ali main`, whose name ends in the marker
suffix `main`, is booked at Monday 8:00-9:00 — start hour 8, refuting the
claimed minimum start of 9. -/
theorem C8_counterexample :
    pyEndsWith "Ali main" "main" = true ∧
      (generateTimetables wSecsMath wMapMain wRooms1).toOption.map
        (fun p => (ttGet p.1 "CS1").map (fun e => (e.teacher, e.time))) =
        some [("Ali main", "8:00-9:00")] := by decide

/-- C8 (amended): no earliest-start restriction exists for any teacher; the
allocator never consults teacher names when picking slots, and a teacher
whose name ends in `main` receives the very first slot of the week, Monday
8:00-9:00, when it is free. -/
theorem C8_no_start_restriction :
    generateTimetables wSecsMath wMapMain wRooms1 =
      .ok ([("CS1", [⟨"Math", "Ali main", "Monday", "8:00-9:00", "[R1]"⟩])],
        [(("Monday", "8:00-9:00"), ["R1"])]) := rfl

/-- C9 (counterexample): with the `credit hours` column absent, the stored
credit value is 0 (not 1): the run succeeds but emits zero sessions for the
subject, so the claimed single 1-hour session does not exist. -/
theorem C9_counterexample :
    Except.bind (build_teacher_mapping wTeacherNoCredit)
      (fun m => generateTimetables wSecsMath m wRooms1) = .ok ([], []) := rfl

/-- C9 (amended): an absent `credit hours` cell is stored as the integer 0,
which survives the `int(...)` conversion and yields zero theory sessions
(the subject-processing step returns the state unchanged); the fallback
value 3 applies only when the stored value fails `int(...)` conversion. -/
theorem C9_credit_defaults :
    (∀ row : TeacherRow, row.creditHours = none → teacherRowCredit row = PyVal.int 0) ∧
      (∀ nm : String, creditUsed ⟨nm, PyVal.int 0⟩ = 0) ∧
      (∀ info : TeacherInfo, pyInt info.creditHours = none → creditUsed info = 3) ∧
      (∀ (rooms : List RoomRow) (mapping : String → List TeacherInfo)
          (sec subject : String) (st : GenState) (t0 : TeacherInfo)
          (rest : List TeacherInfo),
        mapping subject = t0 :: rest → isLabSubject subject = false →
        creditUsed t0 = 0 →
        processSubject rooms mapping sec subject st = .ok st) := by
  refine ⟨?_, ?_, ?_, ?_⟩
  · intro row hr
    simp [teacherRowCredit, hr]
  · intro nm
    rfl
  · intro info hi
    simp [creditUsed, hi]
  · intro rooms mapping sec subject st t0 rest hmap hlab hcr
    simp only [processSubject]
    rw [hmap]
    dsimp only
    rw [if_neg (by simp [hlab]), hcr]
    rfl

/-- C9 witness: the zero-credit behaviour evaluated on a concrete subject
whose stored credit value is the integer 0. -/
theorem C9_credit_defaults_witness :
    wMapCredit0 "Math" = [⟨"T", PyVal.int 0⟩] ∧ isLabSubject "Math" = false ∧
      creditUsed ⟨"T", PyVal.int 0⟩ = 0 ∧
      processSubject wRooms1 wMapCredit0 "CS1" "Math" ⟨[], 0, []⟩ = .ok ⟨[], 0, []⟩ :=
  ⟨by decide, by decide, by decide,
    C9_credit_defaults.2.2.2 wRooms1 wMapCredit0 "CS1" "Math" ⟨[], 0, []⟩
      ⟨"T", PyVal.int 0⟩ [] (by decide) (by decide) (by decide)⟩

end TT
